import Mathlib

/-!
# BasicBlocks: a Pin tool that prints the start address of every executed basic block

Shallow embedding of `BasicBlocks.cpp`.  The tool's own code (`Usage`, `LogBbl`,
`Trace`, `main`) is translated statement by statement as functions on an explicit
process state.  What the tool calls but does not define (the C++ output streams and
the Pin engine) is modelled by the small definitions of the first two sections.
-/

namespace BasicBlocks

/-! ## Output streams -/

/-- The `basefield` group of `std::ios_base::fmtflags`: the base in which a stream
prints integers. -/
inductive Basefield where
  | dec
  | oct
  | hex
  deriving DecidableEq, Repr

/-- The radix a `basefield` setting stands for. -/
def Basefield.radix : Basefield → Nat
  | .dec => 10
  | .oct => 8
  | .hex => 16

/-- A `std::ostream`: the characters written so far and the integer base in force.
No other format flag is ever touched by the tool (no `showbase`, `uppercase`, width or
fill), so they stay at the library defaults and are not represented. -/
structure OStream where
  text : String
  basefield : Basefield
  deriving DecidableEq, Repr

/-- A stream as the C++ runtime creates it: nothing written, decimal integers. -/
def OStream.fresh : OStream := ⟨"", .dec⟩

/-- The stream expression `os << "literal"` (also `os << std::string`). -/
def OStream.putStr (os : OStream) (s : String) : OStream :=
  { os with text := os.text ++ s }

/-- The stream expression `os << std::hex`: sets the base, prints nothing. -/
def OStream.setHex (os : OStream) : OStream :=
  { os with basefield := .hex }

/-- The stream expression `os << n` for an unsigned integer `n`: its digits in the base in
force, most significant first, digits above nine as lowercase letters, a single `0` for
zero. -/
def OStream.putUnsigned (os : OStream) (n : Nat) : OStream :=
  { os with text := os.text ++ String.mk (Nat.toDigits os.basefield.radix n) }

/-- The stream expression `os << endl`: a newline (and a flush, which has no content). -/
def OStream.endl (os : OStream) : OStream :=
  { os with text := os.text ++ "\n" }

/-! ## The Pin engine, as far as the tool uses it -/

/-- A basic block handle of the engine: the handle itself and what `BBL_Address` returns
for it. -/
structure BBL where
  handle : Nat
  address : Nat
  deriving DecidableEq, Repr

/-- The engine call `BBL_Address(bbl)`. -/
def BBL_Address (bbl : BBL) : Nat := bbl.address

/-- A trace (compiled unit): its basic blocks in the order in which `TRACE_BblHead` and
`BBL_Next` expose them. -/
structure TRACE where
  bbls : List BBL
  deriving DecidableEq, Repr

/-- Where an inserted call is placed relative to its block. -/
inductive IPOINT where
  | BEFORE
  | AFTER
  | ANYWHERE
  | TAKEN_BRANCH
  deriving DecidableEq, Repr

/-- Analysis routines of the tool, as function pointers handed to the engine. -/
inductive AFUNPTR where
  | LogBbl
  deriving DecidableEq, Repr

/-- Instrumentation callbacks of the tool, as function pointers handed to the engine. -/
inductive TRACE_INSTRUMENT_CALLBACK where
  | Trace
  deriving DecidableEq, Repr

/-- One call inserted with `BBL_InsertCall(bbl, ipoint, funptr, IARG_ADDRINT, arg, IARG_END)`. -/
structure InsertedCall where
  bbl : BBL
  ipoint : IPOINT
  funptr : AFUNPTR
  arg : Nat
  deriving DecidableEq, Repr

/-- A command-line switch declared with `KNOB<T> k(mode, family, name, default, purpose)`. -/
structure KNOB where
  family : String
  name : String
  defaultText : String
  purpose : String
  deriving DecidableEq, Repr

/-- What the engine made of the command line: whether it is invalid (or asks for help
with `-h`), and the text given for each switch that occurs on it. -/
structure CommandLine where
  invalid : Bool
  given : List (String × String)
  deriving DecidableEq, Repr

/-- The text a switch holds after parsing: what the command line gives it, else its
declared default. -/
def KNOB.text (k : KNOB) (cl : CommandLine) : String :=
  (cl.given.lookup k.name).getD k.defaultText

/-- The engine's reading of a `BOOL` switch: `1` is true and `0` is false; any other text
is no boolean. -/
def BOOL_ofText (s : String) : Option Bool :=
  if s = "1" then some true else if s = "0" then some false else none

/-! ## Process state -/

/-- What the global `std::ostream * out` points at. -/
inductive OutTarget where
  | cerr
  | file (path : String)
  deriving DecidableEq, Repr

/-- The state the tool can read or change: the two standard streams, the files it has
opened for writing (path and stream, most recent first), the global `out`, the trace
callbacks registered with the engine (with their `VOID *` argument), the calls inserted
into compiled code, and whether `PIN_StartProgram` has been called.  `unwritable` is the
part of the environment an open depends on: the paths at which opening a file for writing
fails (a missing directory, no permission). -/
structure World where
  cout : OStream
  cerr : OStream
  files : List (String × OStream)
  out : OutTarget
  traceCallbacks : List (TRACE_INSTRUMENT_CALLBACK × Nat)
  calls : List InsertedCall
  started : Bool
  unwritable : List String
  deriving DecidableEq, Repr

/-- The state when the tool is loaded: `out = &cerr`, nothing printed, nothing opened,
nothing registered or inserted; here in an environment where every path can be opened. -/
def World.initial : World :=
  ⟨OStream.fresh, OStream.fresh, [], .cerr, [], [], false, []⟩

/-- The stream a file opened by the tool holds, if the tool opened that path. -/
def World.file (w : World) (path : String) : Option OStream :=
  w.files.lookup path

/-- The statement `new std::ofstream(path)`.  When the open succeeds the file is created
or truncated and a fresh stream writes to it.  When it fails no file is created and the
stream object is left in its failed state, holding no file; the tool never tests the
stream. -/
def World.openOfstream (w : World) (path : String) : World :=
  if path ∈ w.unwritable then w
  else { w with files := (path, OStream.fresh) :: w.files }

/-- The engine call `BBL_InsertCall(bbl, ipoint, funptr, IARG_ADDRINT, arg, IARG_END)`. -/
def BBL_InsertCall (bbl : BBL) (ipoint : IPOINT) (funptr : AFUNPTR) (arg : Nat)
    (w : World) : World :=
  { w with calls := w.calls ++ [⟨bbl, ipoint, funptr, arg⟩] }

/-- The engine call `TRACE_AddInstrumentFunction(fun, val)`. -/
def TRACE_AddInstrumentFunction (f : TRACE_INSTRUMENT_CALLBACK) (v : Nat) (w : World) :
    World :=
  { w with traceCallbacks := w.traceCallbacks ++ [(f, v)] }

/-- The engine call `PIN_StartProgram()`: the application starts running under the
engine. -/
def PIN_StartProgram (w : World) : World :=
  { w with started := true }

/-! ## Analysis routine -/

/-- Translation of `VOID LogBbl(ADDRINT addr)`:
`if (addr < 0x7f0000000000) std::cout << "BB: 0x" << std::hex << addr << endl;`
An `ADDRINT` is an unsigned machine word; the routine does no arithmetic on it, so the
address is a natural number here. -/
def LogBbl (addr : Nat) (w : World) : World :=
  if addr < 0x7f0000000000 then
    { w with cout := (((w.cout.putStr "BB: 0x").setHex).putUnsigned addr).endl }
  else
    w

/-! ## Command line switches -/

/-- The switch `-o`: `KNOB<string> KnobOutputFile(KNOB_MODE_WRITEONCE, "pintool", "o", "",
"specify file name for BasicBlocks output")`. -/
def KnobOutputFile : KNOB :=
  ⟨"pintool", "o", "", "specify file name for BasicBlocks output"⟩

/-- The switch `-log`: `KNOB<BOOL> KnobLog(KNOB_MODE_WRITEONCE, "pintool", "log", "1",
"log basic blocks called in the application")`. -/
def KnobLog : KNOB :=
  ⟨"pintool", "log", "1", "log basic blocks called in the application"⟩

/-- The value `KnobOutputFile.Value()`. -/
def KnobOutputFile.Value (cl : CommandLine) : String :=
  KnobOutputFile.text cl

/-- The value of `KnobLog` where it is used as a `BOOL`. -/
def KnobLog.Value (cl : CommandLine) : Bool :=
  (BOOL_ofText (KnobLog.text cl)).getD false

/-- The engine call `PIN_Init(argc, argv)`: true when the command line is invalid or asks
for help, which includes a `-log` text that is no boolean. -/
def PIN_Init (cl : CommandLine) : Bool :=
  cl.invalid || (BOOL_ofText (KnobLog.text cl)).isNone

/-! ## Utilities -/

/-- Translation of `INT32 Usage()`.  `summary` is what the engine's
`KNOB_BASE::StringKnobSummary()` returns. -/
def Usage (summary : String) (w : World) : Int × World :=
  let cerr := w.cerr
  let cerr := cerr.putStr "This tool prints out the address of each basic block that"
  let cerr := cerr.endl
  let cerr := cerr.putStr "gets executed for use with code coverage analysis"
  let cerr := cerr.endl
  let cerr := cerr.endl
  let cerr := cerr.putStr summary
  let cerr := cerr.endl
  (-1, { w with cerr := cerr })

/-! ## Instrumentation callback -/

/-- The loop of `Trace` from a given block on: `rest` is the block `bbl` points at and
the blocks `BBL_Next` reaches from it; `BBL_Valid` fails when it is empty. -/
def Trace.loop : List BBL → World → World
  | [], w => w
  | bbl :: rest, w =>
    Trace.loop rest (BBL_InsertCall bbl .BEFORE .LogBbl (BBL_Address bbl) w)

/-- Translation of `VOID Trace(TRACE trace, VOID *v)`:
`for (BBL bbl = TRACE_BblHead(trace); BBL_Valid(bbl); bbl = BBL_Next(bbl))`
`BBL_InsertCall(bbl, IPOINT_BEFORE, (AFUNPTR)LogBbl, IARG_ADDRINT, BBL_Address(bbl), IARG_END);` -/
def Trace (trace : TRACE) (_v : Nat) (w : World) : World :=
  Trace.loop trace.bbls w

/-! ## The main procedure -/

/-- The separator line of the banner, the string literal
`"==============================================="` of `main`: 47 times the character `=`. -/
def separator : String := String.mk (List.replicate 47 '=')

/-- Translation of `int main(int argc, char *argv[])`.  `cl` is the command line as
the engine parses it and `summary` the engine's switch summary. -/
def main (summary : String) (cl : CommandLine) (w : World) : Int × World :=
  if PIN_Init cl then
    Usage summary w
  else
    let fileName := KnobOutputFile.Value cl
    let w := if !fileName.isEmpty then
        { w.openOfstream fileName with out := .file fileName }
      else w
    let w := if KnobLog.Value cl then TRACE_AddInstrumentFunction .Trace 0 w else w
    let cerr := w.cerr
    let cerr := (cerr.putStr separator).endl
    let cerr := (cerr.putStr "This application is instrumented by BasicBlocks").endl
    let cerr := if !(KnobOutputFile.Value cl).isEmpty then
        (((cerr.putStr "See file ").putStr (KnobOutputFile.Value cl)).putStr
          " for analysis results").endl
      else cerr
    let cerr := (cerr.putStr separator).endl
    let w := { w with cerr := cerr }
    let w := PIN_StartProgram w
    (0, w)

/-! ## The engine running the application -/

/-- The engine calling an analysis routine with its `IARG_ADDRINT` argument. -/
def callAnalysis : AFUNPTR → Nat → World → World
  | .LogBbl, arg, w => LogBbl arg w

/-- The engine calling an instrumentation callback on a new trace. -/
def callInstrument : TRACE_INSTRUMENT_CALLBACK → TRACE → Nat → World → World
  | .Trace, trace, v, w => Trace trace v w

/-- What the engine does while the application runs: it compiles a new trace, or the
application is about to execute a block of compiled code. -/
inductive Event where
  | compile (trace : TRACE)
  | execute (bbl : BBL)
  deriving DecidableEq, Repr

/-- The engine calls every analysis call of the list, in order. -/
def runCalls : List InsertedCall → World → World
  | [], w => w
  | c :: cs, w => runCalls cs (callAnalysis c.funptr c.arg w)

/-- The engine calls every registered instrumentation callback on a trace, in order. -/
def runCallbacks : List (TRACE_INSTRUMENT_CALLBACK × Nat) → TRACE → World → World
  | [], _, w => w
  | (f, v) :: fs, trace, w => runCallbacks fs trace (callInstrument f trace v w)

/-- One event.  Before `PIN_StartProgram` the application does not run and nothing
happens.  A new trace is handed to every registered callback; a block about to execute
runs the calls inserted before it, in insertion order. -/
def step (w : World) : Event → World
  | .compile trace =>
    if w.started then runCallbacks w.traceCallbacks trace w else w
  | .execute bbl =>
    if w.started then
      runCalls (w.calls.filter (fun c => c.bbl = bbl ∧ c.ipoint = IPOINT.BEFORE)) w
    else w

/-- A run of the application: a sequence of events. -/
def run (w : World) (events : List Event) : World :=
  events.foldl step w

/-! ## Vocabulary of the statements -/

/-- Calling `LogBbl` on a sequence of addresses, in order. -/
def LogBblAll (addrs : List Nat) (w : World) : World :=
  addrs.foldl (fun w a => LogBbl a w) w

/-- The text one call `LogBbl(a)` prints when it is the only call of a process. -/
def lineOf (a : Nat) : String :=
  (LogBbl a World.initial).cout.text

/-- The value of a base-16 digit character, `0-9` or `a-f`; none for any other
character. -/
def hexValue (c : Char) : Option Nat :=
  if 48 ≤ c.toNat ∧ c.toNat ≤ 57 then some (c.toNat - 48)
  else if 97 ≤ c.toNat ∧ c.toNat ≤ 102 then some (c.toNat - 87)
  else none

/-- Reads a list of base-16 digits, most significant first, onto the value `acc`. -/
def readHex : List Char → Nat → Option Nat
  | [], acc => some acc
  | c :: cs, acc =>
    match hexValue c with
    | some d => readHex cs (16 * acc + d)
    | none => none

/-- A reader of the line format: drops the prefix `BB: 0x` and the final newline and
reads what is left, at least one digit, as a base-16 number. -/
def parseLine (line : String) : Option Nat :=
  match line.data with
  | 'B' :: 'B' :: ':' :: ' ' :: '0' :: 'x' :: rest =>
    match rest.reverse with
    | '\n' :: d :: ds => readHex (d :: ds).reverse 0
    | _ => none
  | _ => none

/-- The sixteen digit characters of base sixteen in lowercase. -/
def hexAlphabet : List Char := "0123456789abcdef".data

/-- Concatenation of texts, in order. -/
def concatAll : List String → String
  | [] => ""
  | s :: ss => s ++ concatAll ss

/-- The startup banner for a given output file name (empty when `-o` is not used), as
one text. -/
def bannerText (path : String) : String :=
  separator ++ "\n" ++
  "This application is instrumented by BasicBlocks" ++ "\n" ++
  (if path = "" then "" else "See file " ++ path ++ " for analysis results" ++ "\n") ++
  separator ++ "\n"

/-- The help text of `Usage` for a given switch summary, as one text. -/
def usageText (summary : String) : String :=
  "This tool prints out the address of each basic block that" ++ "\n" ++
  "gets executed for use with code coverage analysis" ++ "\n" ++ "\n" ++
  summary ++ "\n"

/-- Number of complete lines in a text: its newline characters. -/
def lineCount (s : String) : Nat :=
  s.data.count '\n'

/-! ## Facts about the digits a stream prints -/

/-- With enough fuel the digit loop does not depend on the fuel. -/
theorem toDigitsCore_fuel : ∀ (f1 f2 n : Nat) (ds : List Char),
    n < f1 → n < f2 → Nat.toDigitsCore 16 f1 n ds = Nat.toDigitsCore 16 f2 n ds := by
  intro f1
  induction f1 with
  | zero => intro f2 n ds h1; omega
  | succ f1 ih =>
    intro f2 n ds h1 h2
    cases f2 with
    | zero => omega
    | succ f2 =>
      simp only [Nat.toDigitsCore]
      by_cases h0 : n / 16 = 0
      · simp [h0]
      · simp only [h0, if_false]
        apply ih <;> omega

/-- The digit loop only ever puts digits in front of what it was given. -/
theorem toDigitsCore_append : ∀ (f n : Nat) (ds : List Char),
    Nat.toDigitsCore 16 f n ds = Nat.toDigitsCore 16 f n [] ++ ds := by
  intro f
  induction f with
  | zero => intro n ds; simp [Nat.toDigitsCore]
  | succ f ih =>
    intro n ds
    simp only [Nat.toDigitsCore]
    by_cases h0 : n / 16 = 0
    · simp [h0]
    · simp only [h0, if_false]
      rw [ih (n / 16) (Nat.digitChar (n % 16) :: ds), ih (n / 16) [Nat.digitChar (n % 16)]]
      simp

/-- A value below sixteen prints as one digit. -/
theorem toDigits_small (n : Nat) (h : n < 16) : Nat.toDigits 16 n = [Nat.digitChar n] := by
  have h0 : n / 16 = 0 := by omega
  have h1 : n % 16 = n := by omega
  simp [Nat.toDigits, Nat.toDigitsCore, h0, h1]

/-- A value of sixteen or more prints as the digits of its quotient by sixteen followed
by the digit of its remainder. -/
theorem toDigits_step (n : Nat) (h : 16 ≤ n) :
    Nat.toDigits 16 n = Nat.toDigits 16 (n / 16) ++ [Nat.digitChar (n % 16)] := by
  have h0 : n / 16 ≠ 0 := by omega
  have hlt : n / 16 < n := by omega
  have key : Nat.toDigits 16 n =
      Nat.toDigitsCore 16 n (n / 16) [Nat.digitChar (n % 16)] := by
    simp only [Nat.toDigits, Nat.toDigitsCore, h0, if_false]
  rw [key, toDigitsCore_append n (n / 16) [Nat.digitChar (n % 16)],
    toDigitsCore_fuel n (n / 16 + 1) (n / 16) [] hlt (by omega)]
  rfl

theorem digitChar_mem (d : Nat) (h : d < 16) : Nat.digitChar d ∈ hexAlphabet := by
  interval_cases d <;> decide

theorem hexValue_digitChar (d : Nat) (h : d < 16) : hexValue (Nat.digitChar d) = some d := by
  interval_cases d <;> decide

theorem digitChar_ne_zero (d : Nat) (h : d < 16) (h0 : d ≠ 0) : Nat.digitChar d ≠ '0' := by
  interval_cases d <;> first | omega | decide

/-- Every printed digit is one of `0-9`, `a-f`. -/
theorem toDigits_mem (n : Nat) : ∀ c ∈ Nat.toDigits 16 n, c ∈ hexAlphabet := by
  induction n using Nat.strong_induction_on with
  | _ n ih =>
    rcases Nat.lt_or_ge n 16 with h | h
    · rw [toDigits_small n h]
      intro c hc
      simp only [List.mem_singleton] at hc
      subst hc
      exact digitChar_mem n h
    · rw [toDigits_step n h]
      intro c hc
      rcases List.mem_append.mp hc with hc | hc
      · exact ih (n / 16) (by omega) c hc
      · simp only [List.mem_singleton] at hc
        subst hc
        exact digitChar_mem (n % 16) (by omega)

/-- At least one digit is printed. -/
theorem toDigits_ne_nil (n : Nat) : Nat.toDigits 16 n ≠ [] := by
  rcases Nat.lt_or_ge n 16 with h | h
  · rw [toDigits_small n h]; simp
  · rw [toDigits_step n h]; simp

/-- A positive value is printed without a leading zero. -/
theorem toDigits_head (n : Nat) (hn : n ≠ 0) : (Nat.toDigits 16 n).head? ≠ some '0' := by
  induction n using Nat.strong_induction_on with
  | _ n ih =>
    rcases Nat.lt_or_ge n 16 with h | h
    · rw [toDigits_small n h]
      simpa using digitChar_ne_zero n h hn
    · rw [toDigits_step n h]
      have hq := ih (n / 16) (by omega) (by omega)
      have hne := toDigits_ne_nil (n / 16)
      cases hd : Nat.toDigits 16 (n / 16) with
      | nil => exact absurd hd hne
      | cons c cs =>
        rw [hd] at hq
        simpa using hq

theorem readHex_append (xs : List Char) (c : Char) : ∀ acc : Nat,
    readHex (xs ++ [c]) acc =
      (readHex xs acc).bind (fun v => (hexValue c).map (fun d => 16 * v + d)) := by
  induction xs with
  | nil =>
    intro acc
    cases hv : hexValue c <;> simp [readHex, hv]
  | cons x xs ih =>
    intro acc
    cases hv : hexValue x with
    | none => simp [readHex, hv]
    | some d => simp [readHex, hv, ih]

/-- Reading the printed digits gives the value back. -/
theorem readHex_toDigits (n : Nat) : readHex (Nat.toDigits 16 n) 0 = some n := by
  induction n using Nat.strong_induction_on with
  | _ n ih =>
    rcases Nat.lt_or_ge n 16 with h | h
    · rw [toDigits_small n h]
      simp [readHex, hexValue_digitChar n h]
    · rw [toDigits_step n h, readHex_append, ih (n / 16) (by omega),
        hexValue_digitChar (n % 16) (by omega)]
      simp only [Option.some_bind, Option.map_some']
      congr 1
      omega

/-- No newline is among the printed digits. -/
theorem toDigits_count_newline (n : Nat) : (Nat.toDigits 16 n).count '\n' = 0 := by
  apply List.count_eq_zero.mpr
  intro hmem
  have := toDigits_mem n _ hmem
  revert this
  decide

/-! ## The reporter `LogBbl` -/

/-- The text of one reported line, written out. -/
theorem lineOf_eq (a : Nat) (h : a < 0x7f0000000000) :
    lineOf a = "BB: 0x" ++ String.mk (Nat.toDigits 16 a) ++ "\n" := by
  simp [lineOf, LogBbl, h, World.initial, OStream.fresh, OStream.putStr, OStream.setHex,
    OStream.putUnsigned, OStream.endl, Basefield.radix, String.append_assoc]

theorem lineOf_filtered (a : Nat) (h : 0x7f0000000000 ≤ a) : lineOf a = "" := by
  have h2 : ¬ a < 0x7f0000000000 := by omega
  simp [lineOf, LogBbl, h2, World.initial, OStream.fresh]

/-- One call appends the line of its address to standard output, whatever was printed
before and whatever base the stream was left in, and changes nothing else. -/
theorem LogBbl_eq (a : Nat) (w : World) :
    LogBbl a w = { w with cout :=
      ⟨w.cout.text ++ lineOf a, if a < 0x7f0000000000 then .hex else w.cout.basefield⟩ } := by
  by_cases h : a < 0x7f0000000000
  · rw [lineOf_eq a h]
    simp [LogBbl, h, OStream.putStr, OStream.setHex, OStream.putUnsigned, OStream.endl,
      Basefield.radix, String.append_assoc]
  · rw [lineOf_filtered a (by omega)]
    simp [LogBbl, h]

theorem lineCount_append (s t : String) : lineCount (s ++ t) = lineCount s + lineCount t := by
  simp [lineCount]

theorem lineCount_lineOf (a : Nat) :
    lineCount (lineOf a) = if a < 0x7f0000000000 then 1 else 0 := by
  by_cases h : a < 0x7f0000000000
  · rw [lineOf_eq a h]
    simp [lineCount, h, toDigits_count_newline]
  · rw [lineOf_filtered a (by omega)]
    simp [lineCount, h]

theorem parseLine_lineOf (a : Nat) (h : a < 0x7f0000000000) : parseLine (lineOf a) = some a := by
  rw [lineOf_eq a h]
  have hne := toDigits_ne_nil a
  have hrev : (Nat.toDigits 16 a).reverse ≠ [] := by simpa using hne
  cases hd : (Nat.toDigits 16 a).reverse with
  | nil => exact absurd hd hrev
  | cons d ds =>
    have hback : (d :: ds).reverse = Nat.toDigits 16 a := by
      rw [← hd]; simp
    have hdata : ("BB: 0x" ++ String.mk (Nat.toDigits 16 a) ++ "\n").data =
        'B' :: 'B' :: ':' :: ' ' :: '0' :: 'x' :: (Nat.toDigits 16 a ++ ['\n']) := by
      simp
    simp only [parseLine, hdata, List.reverse_append, List.reverse_cons, List.reverse_nil,
      List.nil_append, List.singleton_append, hd]
    rw [← List.reverse_cons, hback]
    exact readHex_toDigits a

theorem LogBblAll_text : ∀ (addrs : List Nat) (w : World),
    (LogBblAll addrs w).cout.text = w.cout.text ++ concatAll (addrs.map lineOf) := by
  intro addrs
  induction addrs with
  | nil => intro w; simp [LogBblAll, concatAll]
  | cons a as ih =>
    intro w
    have hstep : LogBblAll (a :: as) w = LogBblAll as (LogBbl a w) := rfl
    rw [hstep, ih (LogBbl a w), LogBbl_eq]
    simp [concatAll, String.append_assoc]

theorem lineCount_concatAll (addrs : List Nat) :
    lineCount (concatAll (addrs.map lineOf)) =
      (addrs.filter (fun a => a < 0x7f0000000000)).length := by
  induction addrs with
  | nil => simp [concatAll, lineCount]
  | cons a as ih =>
    simp only [List.map_cons, concatAll, lineCount_append, ih, lineCount_lineOf]
    by_cases h : a < 0x7f0000000000
    · simp [h, List.filter_cons]; omega
    · simp [h, List.filter_cons]

/-- C1. For every address below `0x7f0000000000`, one call of `LogBbl` appends exactly
one line to standard output: the prefix `BB: 0x`, then the digits of the address in base
sixteen (only `0-9` and `a-f`, at least one digit, reading back to the address, a single
`0` for zero and no leading `0` otherwise), then a newline. -/
theorem LogBbl_appends_one_hex_line (a : Nat) (w : World) (h : a < 0x7f0000000000) :
    ∃ ds : List Char,
      (LogBbl a w).cout.text = w.cout.text ++ ("BB: 0x" ++ String.mk ds ++ "\n") ∧
      lineCount ("BB: 0x" ++ String.mk ds ++ "\n") = 1 ∧
      lineCount (LogBbl a w).cout.text = lineCount w.cout.text + 1 ∧
      ds ≠ [] ∧
      (∀ c ∈ ds, c ∈ "0123456789abcdef".data) ∧
      readHex ds 0 = some a ∧
      (a = 0 → ds = ['0']) ∧
      (a ≠ 0 → ds.head? ≠ some '0') := by
  refine ⟨Nat.toDigits 16 a, ?_, ?_, ?_, toDigits_ne_nil a, toDigits_mem a,
    readHex_toDigits a, ?_, toDigits_head a⟩
  · rw [LogBbl_eq, lineOf_eq a h]
  · rw [← lineOf_eq a h, lineCount_lineOf, if_pos h]
  · rw [LogBbl_eq]
    simp only [lineCount_append, lineCount_lineOf, if_pos h]
  · intro h0
    subst h0
    rfl

/-- The statement of C1 at the address `0x1000`, on the initial state. -/
theorem LogBbl_appends_one_hex_line_witness :
    (0x1000 : Nat) < 0x7f0000000000 ∧
    ∃ ds : List Char,
      (LogBbl 0x1000 World.initial).cout.text =
        World.initial.cout.text ++ ("BB: 0x" ++ String.mk ds ++ "\n") ∧
      lineCount ("BB: 0x" ++ String.mk ds ++ "\n") = 1 ∧
      lineCount (LogBbl 0x1000 World.initial).cout.text =
        lineCount World.initial.cout.text + 1 ∧
      ds ≠ [] ∧
      (∀ c ∈ ds, c ∈ "0123456789abcdef".data) ∧
      readHex ds 0 = some 0x1000 ∧
      ((0x1000 : Nat) = 0 → ds = ['0']) ∧
      ((0x1000 : Nat) ≠ 0 → ds.head? ≠ some '0') :=
  ⟨by decide, LogBbl_appends_one_hex_line 0x1000 World.initial (by decide)⟩

/-- C2. For every address at or above `0x7f0000000000`, one call of `LogBbl` leaves
standard output, and the whole state, unchanged. -/
theorem LogBbl_filters_high_addresses (a : Nat) (w : World) (h : 0x7f0000000000 ≤ a) :
    LogBbl a w = w ∧ (LogBbl a w).cout = w.cout ∧
      lineCount (LogBbl a w).cout.text = lineCount w.cout.text := by
  have h2 : ¬ a < 0x7f0000000000 := by omega
  have hw : LogBbl a w = w := by simp [LogBbl, h2]
  rw [hw]
  exact ⟨rfl, rfl, rfl⟩

/-- The statement of C2 at the bound itself and at the largest 64-bit address. -/
theorem LogBbl_filters_high_addresses_witness :
    ((0x7f0000000000 : Nat) ≤ 0x7f0000000000 ∧
      LogBbl 0x7f0000000000 World.initial = World.initial) ∧
    ((0x7f0000000000 : Nat) ≤ 0xffffffffffffffff ∧
      LogBbl 0xffffffffffffffff World.initial = World.initial) :=
  ⟨⟨by decide, (LogBbl_filters_high_addresses 0x7f0000000000 World.initial (by decide)).1⟩,
   ⟨by decide, (LogBbl_filters_high_addresses 0xffffffffffffffff World.initial (by decide)).1⟩⟩

/-- C7. The reporter's sink is fixed: for every address and every state, in particular
the state any startup leaves (with or without `-o`), `LogBbl` only extends the text of
standard output; standard error, the files the tool opened, the global `out` and everything
the engine holds stay as they were. -/
theorem LogBbl_writes_only_stdout (a : Nat) (w : World) (summary : String)
    (cl : CommandLine) :
    ((LogBbl a w).cerr = w.cerr ∧ (LogBbl a w).files = w.files ∧
      (LogBbl a w).out = w.out ∧ (LogBbl a w).traceCallbacks = w.traceCallbacks ∧
      (LogBbl a w).calls = w.calls ∧ (LogBbl a w).started = w.started ∧
      (LogBbl a w).cout.text = w.cout.text ++ lineOf a) ∧
    ((LogBbl a (main summary cl w).2).cerr = (main summary cl w).2.cerr ∧
      (LogBbl a (main summary cl w).2).files = (main summary cl w).2.files ∧
      (LogBbl a (main summary cl w).2).out = (main summary cl w).2.out ∧
      (LogBbl a (main summary cl w).2).cout.text =
        (main summary cl w).2.cout.text ++ lineOf a) ∧
    (LogBbl 0x1000 (main "" ⟨false, [("o", "results.txt")]⟩ World.initial).2).cout.text
        = "BB: 0x1000\n" ∧
    (LogBbl 0x1000 (main "" ⟨false, [("o", "results.txt")]⟩ World.initial).2).file
        "results.txt" = some OStream.fresh := by
  refine ⟨?_, ?_, by decide, by decide⟩
  · rw [LogBbl_eq]
    exact ⟨rfl, rfl, rfl, rfl, rfl, rfl, rfl⟩
  · rw [LogBbl_eq]
    exact ⟨rfl, rfl, rfl, rfl⟩

/-- C9. The line format can be read back: for every address below `0x7f0000000000` the
text `LogBbl` appends is `lineOf a`; dropping its prefix `BB: 0x` and its final newline and
reading the rest in base sixteen gives the address, so two different such addresses never
give the same line. -/
theorem LogBbl_line_reads_back (a : Nat) (w : World) (h : a < 0x7f0000000000) :
    (LogBbl a w).cout.text = w.cout.text ++ lineOf a ∧
    parseLine (lineOf a) = some a ∧
    (∀ b : Nat, b < 0x7f0000000000 → lineOf a = lineOf b → a = b) := by
  refine ⟨?_, parseLine_lineOf a h, ?_⟩
  · rw [LogBbl_eq]
  · intro b hb hab
    have ha := parseLine_lineOf a h
    rw [hab, parseLine_lineOf b hb] at ha
    exact (Option.some.inj ha).symm

/-- The statement of C9 at the largest reported address, `0x7effffffffff`. -/
theorem LogBbl_line_reads_back_witness :
    (0x7effffffffff : Nat) < 0x7f0000000000 ∧
    (LogBbl 0x7effffffffff World.initial).cout.text =
      World.initial.cout.text ++ lineOf 0x7effffffffff ∧
    parseLine (lineOf 0x7effffffffff) = some 0x7effffffffff ∧
    (∀ b : Nat, b < 0x7f0000000000 → lineOf 0x7effffffffff = lineOf b →
      0x7effffffffff = b) :=
  ⟨by decide, LogBbl_line_reads_back 0x7effffffffff World.initial (by decide)⟩

/-- C10. The reporter keeps no state between calls: after calling `LogBbl` on a sequence
of addresses, standard output is what it was followed by the lines of the single calls in
the same order (the base the stream was left in does not matter), so the number of lines
added is the number of addresses of the sequence below `0x7f0000000000`; an address that
occurs twice is reported twice. -/
theorem LogBbl_sequence_concatenates (addrs : List Nat) (w : World) :
    (LogBblAll addrs w).cout.text = w.cout.text ++ concatAll (addrs.map lineOf) ∧
    lineCount (LogBblAll addrs w).cout.text =
      lineCount w.cout.text + (addrs.filter (fun a => a < 0x7f0000000000)).length ∧
    (∀ (a : Nat) (bf : Basefield),
      (LogBbl a { w with cout := ⟨w.cout.text, bf⟩ }).cout.text = w.cout.text ++ lineOf a) ∧
    (LogBblAll [0x1000, 0x7f0000000000, 0x1000, 0xa] World.initial).cout.text =
      "BB: 0x1000\nBB: 0x1000\nBB: 0xa\n" := by
  refine ⟨LogBblAll_text addrs w, ?_, ?_, by decide⟩
  · rw [LogBblAll_text, lineCount_append, lineCount_concatAll]
  · intro a bf
    rw [LogBbl_eq]

/-! ## The block walker `Trace` -/

theorem Trace_loop_eq : ∀ (bbls : List BBL) (w : World),
    Trace.loop bbls w = { w with calls := (w.calls ++
      bbls.map (fun b => (⟨b, .BEFORE, .LogBbl, b.address⟩ : InsertedCall))) } := by
  intro bbls
  induction bbls with
  | nil => intro w; simp [Trace.loop]
  | cons b bs ih =>
    intro w
    simp [Trace.loop, ih, BBL_InsertCall, BBL_Address]

/-- C3. For every trace with N blocks the walker `Trace` ends and adds exactly N inserted
calls of `LogBbl`, the i-th before the i-th block in the order of the trace and with that
block's own address as argument, and changes nothing else; for a trace without blocks it
does nothing.  For blocks at `0x1000`, `0x2000`, `0x3000`, executing the three blocks in
order prints the three lines `BB: 0x1000`, `BB: 0x2000`, `BB: 0x3000`. -/
theorem Trace_inserts_one_call_per_block (trace : TRACE) (v : Nat) (w : World) :
    Trace trace v w = { w with calls := (w.calls ++
      trace.bbls.map (fun b => (⟨b, .BEFORE, .LogBbl, b.address⟩ : InsertedCall))) } ∧
    (Trace trace v w).calls.length = w.calls.length + trace.bbls.length ∧
    (∀ i : Fin trace.bbls.length,
      (Trace trace v w).calls[w.calls.length + i.val]? =
        some ⟨trace.bbls.get i, .BEFORE, .LogBbl, (trace.bbls.get i).address⟩) ∧
    Trace ⟨[]⟩ v w = w ∧
    (Trace ⟨[⟨0, 0x1000⟩, ⟨1, 0x2000⟩, ⟨2, 0x3000⟩]⟩ 0 World.initial).calls =
      [⟨⟨0, 0x1000⟩, .BEFORE, .LogBbl, 0x1000⟩, ⟨⟨1, 0x2000⟩, .BEFORE, .LogBbl, 0x2000⟩,
       ⟨⟨2, 0x3000⟩, .BEFORE, .LogBbl, 0x3000⟩] ∧
    (run (main "" ⟨false, []⟩ World.initial).2
      [.compile ⟨[⟨0, 0x1000⟩, ⟨1, 0x2000⟩, ⟨2, 0x3000⟩]⟩,
       .execute ⟨0, 0x1000⟩, .execute ⟨1, 0x2000⟩, .execute ⟨2, 0x3000⟩]).cout.text =
      "BB: 0x1000\nBB: 0x2000\nBB: 0x3000\n" := by
  have heq := Trace_loop_eq trace.bbls w
  refine ⟨heq, ?_, ?_, ?_, by decide, by decide⟩
  · simp [Trace, heq]
  · intro i
    have hi := i.isLt
    simp only [Trace, heq]
    rw [List.getElem?_append_right (by omega)]
    simp [List.getElem?_map, List.getElem?_eq_getElem hi]
  · simp [Trace, Trace.loop]

/-! ## Startup -/

theorem isEmpty_eq_decide (s : String) : s.isEmpty = decide (s = "") := by
  by_cases h : s = ""
  · subst h; rfl
  · have hf : s.isEmpty ≠ true := fun ht => h ((String.isEmpty_iff s).mp ht)
    simp [h, hf]

/-- What `main` does on a command line the engine accepts. -/
theorem main_valid (summary : String) (cl : CommandLine) (w : World)
    (h : PIN_Init cl = false) :
    main summary cl w = (0,
      { cout := w.cout,
        cerr := ⟨w.cerr.text ++ bannerText (KnobOutputFile.Value cl), w.cerr.basefield⟩,
        files := (if KnobOutputFile.Value cl = "" ∨ KnobOutputFile.Value cl ∈ w.unwritable
          then w.files
          else (KnobOutputFile.Value cl, OStream.fresh) :: w.files),
        out := (if KnobOutputFile.Value cl = "" then w.out
          else .file (KnobOutputFile.Value cl)),
        traceCallbacks := (w.traceCallbacks ++
          if KnobLog.Value cl then [(TRACE_INSTRUMENT_CALLBACK.Trace, 0)] else []),
        calls := w.calls,
        started := true,
        unwritable := w.unwritable }) := by
  by_cases hp : KnobOutputFile.Value cl = "" <;> by_cases hl : KnobLog.Value cl = true <;>
    by_cases hu : KnobOutputFile.Value cl ∈ w.unwritable <;>
    simp [-String.reduceAppend, main, h, isEmpty_eq_decide, hp, hl, hu, bannerText, World.openOfstream,
      TRACE_AddInstrumentFunction, PIN_StartProgram, OStream.putStr, OStream.endl,
      String.append_assoc]

/-- What `main` does on a command line the engine rejects. -/
theorem main_invalid (summary : String) (cl : CommandLine) (w : World)
    (h : PIN_Init cl = true) :
    main summary cl w =
      (-1, { w with cerr := ⟨w.cerr.text ++ usageText summary, w.cerr.basefield⟩ }) := by
  simp [main, h, Usage, usageText, OStream.putStr, OStream.endl, String.append_assoc]

/-- Before `PIN_StartProgram` no event has an effect. -/
theorem run_not_started : ∀ (events : List Event) (w : World),
    w.started = false → run w events = w := by
  intro events
  induction events with
  | nil => intro w _; rfl
  | cons e es ih =>
    intro w hw
    have hstep : step w e = w := by
      cases e <;> simp [step, hw]
    show run (step w e) es = w
    rw [hstep]
    exact ih w hw

/-- With no registered callback and no inserted call no event has an effect. -/
theorem run_nothing_registered : ∀ (events : List Event) (w : World),
    w.traceCallbacks = [] → w.calls = [] → run w events = w := by
  intro events
  induction events with
  | nil => intro w _ _; rfl
  | cons e es ih =>
    intro w hcb hcalls
    have hstep : step w e = w := by
      cases e <;> simp [step, hcb, hcalls, runCallbacks, runCalls]
    show run (step w e) es = w
    rw [hstep]
    exact ih w hcb hcalls

/-- C4. On an accepted command line, startup registers `Trace` exactly when `-log` is
true, and `-log` is true when it is not given (its default text is `1`).  With `-log 0`
nothing is registered, and whatever traces are compiled and blocks executed afterwards, no
callback is registered, no call is inserted and standard output stays empty. -/
theorem main_registers_iff_log (summary : String) (cl : CommandLine)
    (h : PIN_Init cl = false) :
    ((main summary cl World.initial).2.traceCallbacks = [(.Trace, 0)] ↔
      KnobLog.Value cl = true) ∧
    ((main summary cl World.initial).2.traceCallbacks = [] ↔ KnobLog.Value cl = false) ∧
    (∀ w : World, (main summary cl w).2.traceCallbacks =
      w.traceCallbacks ++ if KnobLog.Value cl then [(.Trace, 0)] else []) ∧
    (cl.given.lookup "log" = none → KnobLog.Value cl = true) ∧
    (cl.given.lookup "log" = some "0" → ∀ events : List Event,
      (run (main summary cl World.initial).2 events).traceCallbacks = [] ∧
      (run (main summary cl World.initial).2 events).calls = [] ∧
      (run (main summary cl World.initial).2 events).cout = OStream.fresh) := by
  have hm := fun w => main_valid summary cl w h
  refine ⟨?_, ?_, ?_, ?_, ?_⟩
  · rw [hm]
    by_cases hl : KnobLog.Value cl = true <;> simp [hl, World.initial]
  · rw [hm]
    by_cases hl : KnobLog.Value cl = true <;> simp [hl, World.initial]
  · intro w
    rw [hm]
  · intro hnone
    simp [KnobLog.Value, KNOB.text, KnobLog, hnone, BOOL_ofText]
  · intro hzero events
    have hl : KnobLog.Value cl = false := by
      simp [KnobLog.Value, KNOB.text, KnobLog, hzero, BOOL_ofText]
    have hrun := run_nothing_registered events (main summary cl World.initial).2
      (by rw [hm]; simp [hl, World.initial]) (by rw [hm]; simp [World.initial])
    rw [hrun, hm]
    simp [hl, World.initial]

/-- The statement of C4 on the command lines `-log 0` and the empty one. -/
theorem main_registers_iff_log_witness :
    PIN_Init ⟨false, [("log", "0")]⟩ = false ∧
    (main "" ⟨false, [("log", "0")]⟩ World.initial).2.traceCallbacks = [] ∧
    (run (main "" ⟨false, [("log", "0")]⟩ World.initial).2
      [.compile ⟨[⟨0, 0x1000⟩]⟩, .execute ⟨0, 0x1000⟩]).cout = OStream.fresh ∧
    PIN_Init ⟨false, []⟩ = false ∧
    (main "" ⟨false, []⟩ World.initial).2.traceCallbacks = [(.Trace, 0)] :=
  ⟨by decide,
   (main_registers_iff_log "" ⟨false, [("log", "0")]⟩ (by decide)).2.1.mpr (by decide),
   ((main_registers_iff_log "" ⟨false, [("log", "0")]⟩ (by decide)).2.2.2.2 (by decide)
      [.compile ⟨[⟨0, 0x1000⟩]⟩, .execute ⟨0, 0x1000⟩]).2.2,
   by decide,
   (main_registers_iff_log "" ⟨false, []⟩ (by decide)).1.mpr (by decide)⟩

/-- C5, as the code has it. With `-o results.txt` the banner is printed on standard error,
and the file `results.txt` holds nothing of it. -/
theorem main_banner_not_in_output_file :
    (main "" ⟨false, [("o", "results.txt")]⟩ World.initial).2.cerr.text =
      separator ++ "\nThis application is instrumented by BasicBlocks\nSee file results.txt for analysis results\n" ++ separator ++ "\n" ∧
    (main "" ⟨false, [("o", "results.txt")]⟩ World.initial).2.file "results.txt" =
      some ⟨"", .dec⟩ := by
  exact ⟨rfl, rfl⟩

/-- C5, amended. On an accepted command line, with or without `-o <path>`, the startup
banner is appended to standard error, and nothing of it is written to a file: every file
stream the tool holds after startup is empty or is one it held before, unchanged.  This
is so whether the open of `<path>` succeeds or fails.  Without `-o` the output file name is
empty. -/
theorem main_banner_goes_to_stderr (summary : String) (cl : CommandLine) (w : World)
    (h : PIN_Init cl = false) :
    (main summary cl w).2.cerr.text = w.cerr.text ++
      (separator ++ "\n" ++
       "This application is instrumented by BasicBlocks" ++ "\n" ++
       (if KnobOutputFile.Value cl = "" then ""
        else "See file " ++ KnobOutputFile.Value cl ++ " for analysis results" ++ "\n") ++
       separator ++ "\n") ∧
    (∀ (p : String) (s : OStream), (main summary cl w).2.file p = some s →
      s.text = "" ∨ w.file p = some s) ∧
    (cl.given.lookup "o" = none → KnobOutputFile.Value cl = "") := by
  rw [main_valid summary cl w h]
  refine ⟨rfl, ?_, ?_⟩
  · intro p s hs
    by_cases hc : KnobOutputFile.Value cl = "" ∨ KnobOutputFile.Value cl ∈ w.unwritable
    · right
      simpa [World.file, hc] using hs
    · by_cases hp : p = KnobOutputFile.Value cl
      · left
        subst hp
        simp [World.file, hc, List.lookup] at hs
        rw [← hs]
        rfl
      · right
        have hb : (p == KnobOutputFile.Value cl) = false := by simpa using hp
        simpa [World.file, hc, List.lookup, hb] using hs
  · intro hnone
    simp [KnobOutputFile.Value, KNOB.text, KnobOutputFile, hnone]

/-- The amended statement of C5 on the command line `-o results.txt`, and on the command
line `-o nonexistent_dir/x.txt` where the open fails. -/
theorem main_banner_goes_to_stderr_witness :
    (PIN_Init ⟨false, [("o", "results.txt")]⟩ = false ∧
      (main "" ⟨false, [("o", "results.txt")]⟩ World.initial).2.cerr.text =
        separator ++ "\nThis application is instrumented by BasicBlocks\nSee file results.txt for analysis results\n" ++ separator ++ "\n" ∧
      (∀ (p : String) (s : OStream),
        (main "" ⟨false, [("o", "results.txt")]⟩ World.initial).2.file p = some s →
        s.text = "" ∨ World.initial.file p = some s)) ∧
    (PIN_Init ⟨false, [("o", "nonexistent_dir/x.txt")]⟩ = false ∧
      (main "" ⟨false, [("o", "nonexistent_dir/x.txt")]⟩
        { World.initial with unwritable := ["nonexistent_dir/x.txt"] }).2.cerr.text =
        separator ++ "\nThis application is instrumented by BasicBlocks\nSee file nonexistent_dir/x.txt for analysis results\n" ++ separator ++ "\n" ∧
      (main "" ⟨false, [("o", "nonexistent_dir/x.txt")]⟩
        { World.initial with unwritable := ["nonexistent_dir/x.txt"] }).2.file
          "nonexistent_dir/x.txt" = none) :=
  ⟨⟨by decide,
    (main_banner_goes_to_stderr "" ⟨false, [("o", "results.txt")]⟩ World.initial
      (by decide)).1.trans rfl,
    (main_banner_goes_to_stderr "" ⟨false, [("o", "results.txt")]⟩ World.initial
      (by decide)).2.1⟩,
   ⟨by decide,
    (main_banner_goes_to_stderr "" ⟨false, [("o", "nonexistent_dir/x.txt")]⟩
      { World.initial with unwritable := ["nonexistent_dir/x.txt"] } (by decide)).1.trans rfl,
    rfl⟩⟩

/-- C6. When the engine rejects the command line (invalid arguments or `-h`), `main`
returns `-1`, appends the help text with the engine's switch summary to standard error
and changes nothing else: no file is opened, no callback registered, no banner printed,
the program not started; whatever events follow, standard output stays empty. -/
theorem main_rejected_command_line (summary : String) (cl : CommandLine) (w : World)
    (h : PIN_Init cl = true) :
    (main summary cl w).1 = -1 ∧ (main summary cl w).1 < 0 ∧ (main summary cl w).1 ≠ 0 ∧
    (main summary cl w).2.cerr.text = w.cerr.text ++
      ("This tool prints out the address of each basic block that" ++ "\n" ++
       "gets executed for use with code coverage analysis" ++ "\n" ++ "\n" ++
       summary ++ "\n") ∧
    (main summary cl w).2.files = w.files ∧
    (main summary cl w).2.out = w.out ∧
    (main summary cl w).2.traceCallbacks = w.traceCallbacks ∧
    (main summary cl w).2.calls = w.calls ∧
    (main summary cl w).2.started = w.started ∧
    (main summary cl w).2.cout = w.cout ∧
    (∀ events : List Event,
      (run (main summary cl World.initial).2 events).cout = OStream.fresh ∧
      (run (main summary cl World.initial).2 events).files = [] ∧
      (run (main summary cl World.initial).2 events).traceCallbacks = [] ∧
      (run (main summary cl World.initial).2 events).started = false) := by
  have hm := fun w => main_invalid summary cl w h
  rw [hm]
  refine ⟨rfl, by simp, by simp, rfl, rfl, rfl, rfl, rfl, rfl, rfl, ?_⟩
  intro events
  have hrun := run_not_started events (main summary cl World.initial).2
    (by rw [hm]; rfl)
  rw [hrun, hm]
  exact ⟨rfl, rfl, rfl, rfl⟩

/-- The statement of C6 on a command line with an unknown switch. -/
theorem main_rejected_command_line_witness :
    PIN_Init ⟨true, [("bogus", "")]⟩ = true ∧
    (main "-o, -log" ⟨true, [("bogus", "")]⟩ World.initial).1 = -1 ∧
    (main "-o, -log" ⟨true, [("bogus", "")]⟩ World.initial).2.cerr.text =
      "This tool prints out the address of each basic block that\ngets executed for use with code coverage analysis\n\n-o, -log\n" :=
  ⟨by decide,
   (main_rejected_command_line "-o, -log" ⟨true, [("bogus", "")]⟩ World.initial
      (by decide)).1,
   (main_rejected_command_line "-o, -log" ⟨true, [("bogus", "")]⟩ World.initial
      (by decide)).2.2.2.1⟩

/-- C8. On every accepted command line the banner is printed on the state in which
registration has been done (if `-log` asked for it) and nothing has been printed yet, and
then the program is started.  The banner is a separator line, the line `This application is
instrumented by BasicBlocks`, the line `See file <path> for analysis results` exactly when
the output file name is not empty, and a separator line; it is the same whether or not
`-log` is on. -/
theorem main_prints_banner (summary : String) (cl : CommandLine) (w : World)
    (h : PIN_Init cl = false) :
    (∃ w1 : World,
      w1.traceCallbacks =
        (w.traceCallbacks ++ if KnobLog.Value cl then [(.Trace, 0)] else []) ∧
      w1.cerr = w.cerr ∧
      (main summary cl w).2 = PIN_StartProgram { w1 with cerr := ⟨w1.cerr.text ++
        (separator ++ "\n" ++
         "This application is instrumented by BasicBlocks" ++ "\n" ++
         (if KnobOutputFile.Value cl = "" then ""
          else "See file " ++ KnobOutputFile.Value cl ++ " for analysis results" ++ "\n") ++
         separator ++ "\n"), w1.cerr.basefield⟩ }) ∧
    (separator.length = 47 ∧ ∀ c ∈ separator.data, c = '=') ∧
    (main "" ⟨false, [("log", "0")]⟩ World.initial).2.cerr.text =
      separator ++ "\nThis application is instrumented by BasicBlocks\n" ++ separator ++ "\n" ∧
    (main "" ⟨false, [("log", "1")]⟩ World.initial).2.cerr.text =
      separator ++ "\nThis application is instrumented by BasicBlocks\n" ++ separator ++ "\n" ∧
    (main "" ⟨false, [("log", "0"), ("o", "out.txt")]⟩ World.initial).2.cerr.text =
      separator ++ "\nThis application is instrumented by BasicBlocks\nSee file out.txt for analysis results\n" ++ separator ++ "\n" := by
  refine ⟨?_, by decide, by decide, by decide, by decide⟩
  rw [main_valid summary cl w h]
  refine ⟨{ w with
      files := (if KnobOutputFile.Value cl = "" ∨ KnobOutputFile.Value cl ∈ w.unwritable
        then w.files
        else (KnobOutputFile.Value cl, OStream.fresh) :: w.files),
      out := (if KnobOutputFile.Value cl = "" then w.out
        else .file (KnobOutputFile.Value cl)),
      traceCallbacks := (w.traceCallbacks ++
        if KnobLog.Value cl then [(TRACE_INSTRUMENT_CALLBACK.Trace, 0)] else []) },
    rfl, rfl, ?_⟩
  rfl

/-- The statement of C8 on the command line `-o out.txt`. -/
theorem main_prints_banner_witness :
    PIN_Init ⟨false, [("o", "out.txt")]⟩ = false ∧
    ∃ w1 : World,
      w1.traceCallbacks = (World.initial.traceCallbacks ++
        if KnobLog.Value ⟨false, [("o", "out.txt")]⟩ then [(.Trace, 0)] else []) ∧
      w1.cerr = World.initial.cerr ∧
      (main "" ⟨false, [("o", "out.txt")]⟩ World.initial).2 =
        PIN_StartProgram { w1 with cerr := ⟨w1.cerr.text ++
        (separator ++ "\n" ++
         "This application is instrumented by BasicBlocks" ++ "\n" ++
         (if KnobOutputFile.Value ⟨false, [("o", "out.txt")]⟩ = "" then ""
          else "See file " ++ KnobOutputFile.Value ⟨false, [("o", "out.txt")]⟩ ++
            " for analysis results" ++ "\n") ++
         separator ++ "\n"), w1.cerr.basefield⟩ } :=
  ⟨by decide,
   (main_prints_banner "" ⟨false, [("o", "out.txt")]⟩ World.initial (by decide)).1⟩

end BasicBlocks
